import Mathlib

/-!
Shallow embedding of the AI-PDF-Renamer repository (src/config.py,
src/file_manager.py, src/metadata_extractor.py, src/main.py) and proofs
about it.  Python strings are modelled as Lean `String`/`List Char`,
JSON values as an inductive `Json`, dictionaries as association lists.
-/

/-! ### Configuration constants (src/config.py) -/

def DEFAULT_MAX_FILENAME_LENGTH : Nat := 100

def DEFAULT_MAX_RETRIES : Nat := 3

def DEFAULT_RATE_LIMIT_DELAY : ℚ := 6

def DEFAULT_RETRY_BASE_DELAY : Nat := 60

/-! ### Generic string helpers (Python semantics) -/

/-- Python whitespace characters matched by `\s` and stripped by `str.strip()`
(ASCII range). -/
def isPySpace (c : Char) : Bool :=
  c == ' ' || c == '\t' || c == '\n' || c == '\r' ||
  c == Char.ofNat 11 || c == Char.ofNat 12

/-- Python's substring test `needle in hay`. -/
def strContains (hay needle : String) : Bool :=
  decide (List.IsInfix needle.data hay.data)

/-- Python `str.lower()` (ASCII letters). -/
def pyLower (s : String) : String :=
  String.mk (s.data.map Char.toLower)

/-- Characters removed by `re.sub(r'[<>:"/\\|?*]', "", text)`. -/
def forbiddenChars : List Char :=
  ['<', '>', ':', Char.ofNat 34, '/', '\\', '|', '?', '*']

/-- Characters removed by the special-symbol denylist regex in
`sanitize_filename`. -/
def symbolChars : List Char :=
  ['†', '‡', '§', '¶', '#', '@', '$', '%', '^', '&', '*', '+', '=',
   Char.ofNat 123, Char.ofNat 125, '[', ']', '~', Char.ofNat 96]

/-- `text.replace("\n", " ")`. -/
def replaceNewlines (l : List Char) : List Char :=
  l.map (fun c => if c == '\n' then ' ' else c)

/-- `re.sub(r"\s+", " ", text)`: collapse every maximal whitespace run to a
single space.  `inRun` records whether the previous character was part of a
whitespace run already emitted as one space. -/
def collapseWsAux : Bool → List Char → List Char
  | _, [] => []
  | inRun, c :: rest =>
    if isPySpace c then
      if inRun then collapseWsAux true rest
      else ' ' :: collapseWsAux true rest
    else c :: collapseWsAux false rest

def collapseWs (l : List Char) : List Char := collapseWsAux false l

/-- Python `str.strip()`: drop whitespace from both ends. -/
def pyStripChars (l : List Char) : List Char :=
  ((l.dropWhile isPySpace).reverse.dropWhile isPySpace).reverse

def pyStrip (s : String) : String :=
  String.mk (pyStripChars s.data)

/-! ### src/file_manager.py : sanitize_filename -/

/-- `FileManager.sanitize_filename` from src/file_manager.py. -/
def sanitize_filename (s : String) : String :=
  if s = "" || s = "Not found" then "Unknown"
  else
    String.mk ((pyStripChars
      ((collapseWs (replaceNewlines
        (s.data.filter (fun c => !(forbiddenChars.contains c))))).filter
        (fun c => !(symbolChars.contains c)))).take DEFAULT_MAX_FILENAME_LENGTH)

/-! ### Membership lemmas for the sanitize pipeline -/

theorem mem_collapseWsAux {c : Char} : ∀ {b : Bool} {l : List Char},
    c ∈ collapseWsAux b l → c = ' ' ∨ c ∈ l
  | _, [], h => by simp [collapseWsAux] at h
  | b, x :: rest, h => by
    rw [collapseWsAux] at h
    by_cases hx : isPySpace x
    · rw [if_pos hx] at h
      cases b with
      | true =>
        rcases mem_collapseWsAux h with h3 | h4
        · exact Or.inl h3
        · exact Or.inr (List.mem_cons_of_mem _ h4)
      | false =>
        rcases List.mem_cons.mp h with h1 | h2
        · exact Or.inl h1
        · rcases mem_collapseWsAux h2 with h3 | h4
          · exact Or.inl h3
          · exact Or.inr (List.mem_cons_of_mem _ h4)
    · rw [if_neg hx] at h
      rcases List.mem_cons.mp h with h1 | h2
      · exact Or.inr (h1 ▸ List.mem_cons_self x rest)
      · rcases mem_collapseWsAux h2 with h3 | h4
        · exact Or.inl h3
        · exact Or.inr (List.mem_cons_of_mem _ h4)

theorem mem_collapseWs {c : Char} {l : List Char} (h : c ∈ collapseWs l) :
    c = ' ' ∨ c ∈ l :=
  mem_collapseWsAux h

theorem mem_pyStripChars {c : Char} {l : List Char} (h : c ∈ pyStripChars l) :
    c ∈ l := by
  unfold pyStripChars at h
  rw [List.mem_reverse] at h
  have h2 := (List.dropWhile_sublist _).mem h
  rw [List.mem_reverse] at h2
  exact (List.dropWhile_sublist _).mem h2

/-! ### Decimal rendering of the collision counter (Python `str(int)`) -/

def digitToChar (d : Nat) : Char := Char.ofNat (48 + d)

/-- Decimal digits of `n`, most significant first, prepended to `acc`;
`fuel` bounds the recursion depth and any value above `n` is enough. -/
def natToDigits : Nat → Nat → List Char → List Char
  | 0, _, acc => acc
  | fuel + 1, n, acc =>
    if n < 10 then digitToChar n :: acc
    else natToDigits fuel (n / 10) (digitToChar (n % 10) :: acc)

/-- Decimal string of a natural number, as written by Python `str`/f-strings. -/
def natRepr (n : Nat) : List Char := natToDigits (n + 1) n []

theorem natToDigits_eq (n : Nat) : ∀ fuel acc, n < fuel →
    natToDigits fuel n acc = natRepr n ++ acc := by
  induction n using Nat.strong_induction_on with
  | _ n ih =>
    intro fuel acc hf
    cases fuel with
    | zero => omega
    | succ fuel =>
      rw [natToDigits]
      by_cases h : n < 10
      · rw [if_pos h, natRepr, natToDigits, if_pos h]
        rfl
      · rw [if_neg h]
        have h10 : n / 10 < n :=
          Nat.div_lt_self (Nat.lt_of_lt_of_le (by decide) (Nat.le_of_not_lt h)) (by decide)
        rw [ih _ h10 fuel _ (by omega)]
        conv_rhs => rw [natRepr, natToDigits, if_neg h]
        rw [ih _ h10 n _ h10]
        simp

theorem natRepr_step (n : Nat) :
    natRepr n = if n < 10 then [digitToChar n]
                else natRepr (n / 10) ++ [digitToChar (n % 10)] := by
  by_cases h : n < 10
  · rw [if_pos h, natRepr, natToDigits, if_pos h]
  · rw [if_neg h, natRepr, natToDigits, if_neg h]
    have h10 : n / 10 < n :=
      Nat.div_lt_self (Nat.lt_of_lt_of_le (by decide) (Nat.le_of_not_lt h)) (by decide)
    exact natToDigits_eq _ _ _ h10

/-- Numeric value read back from a digit string. -/
def digitsVal (l : List Char) : Nat :=
  l.foldl (fun a c => 10 * a + (c.toNat - 48)) 0

theorem digitToChar_toNat {d : Nat} (h : d < 10) : (digitToChar d).toNat = 48 + d := by
  interval_cases d <;> rfl

theorem digitsVal_append_digit (l : List Char) (c : Char) :
    digitsVal (l ++ [c]) = 10 * digitsVal l + (c.toNat - 48) := by
  unfold digitsVal
  rw [List.foldl_append]
  rfl

theorem digitsVal_natRepr (n : Nat) : digitsVal (natRepr n) = n := by
  induction n using Nat.strong_induction_on with
  | _ n ih =>
    rw [natRepr_step]
    by_cases h : n < 10
    · simp only [h, if_true]
      show 10 * 0 + ((digitToChar n).toNat - 48) = n
      rw [digitToChar_toNat h]
      omega
    · simp only [h, if_false]
      rw [digitsVal_append_digit]
      have hd : n / 10 < n :=
        Nat.div_lt_self (Nat.lt_of_lt_of_le (by decide) (Nat.le_of_not_lt h)) (by decide)
      rw [ih _ hd, digitToChar_toNat (Nat.mod_lt n (by decide))]
      omega

theorem natRepr_injective : Function.Injective natRepr := by
  intro a b h
  have := digitsVal_natRepr a
  rw [h, digitsVal_natRepr] at this
  omega

/-- Lean string wrapper. -/
def natReprStr (n : Nat) : String := String.mk (natRepr n)

/-- Python `-` sign plus decimal digits, for `str(int)`. -/
def intRepr (n : Int) : List Char :=
  if n < 0 then '-' :: natRepr n.natAbs else natRepr n.toNat

/-! ### JSON values and Python dictionaries -/

inductive Json where
  | null
  | bool (b : Bool)
  | num (n : Int)
  | str (s : String)
  | arr (xs : List Json)
  | obj (kvs : List (String × Json))

/-- Lookup in a Python dict (first matching key). -/
def dictGet : List (String × Json) → String → Option Json
  | [], _ => none
  | (k, v) :: rest, key => if k = key then some v else dictGet rest key

/-- Python `key in d`. -/
def dictContains (d : List (String × Json)) (key : String) : Bool :=
  (dictGet d key).isSome

/-- Python `d.get(key, default)`. -/
def dictGetD (d : List (String × Json)) (key : String) (dflt : Json) : Json :=
  (dictGet d key).getD dflt

/-- Python `d[key] = v`: update the key in place, or append it. -/
def dictSet : List (String × Json) → String → Json → List (String × Json)
  | [], key, v => [(key, v)]
  | (k, w) :: rest, key, v =>
    if k = key then (k, v) :: rest else (k, w) :: dictSet rest key v

theorem dictGet_dictSet (d : List (String × Json)) (key : String) (v : Json) :
    dictGet (dictSet d key v) key = some v := by
  induction d with
  | nil => simp [dictSet, dictGet]
  | cons p rest ih =>
    obtain ⟨k, w⟩ := p
    by_cases h : k = key
    · simp [dictSet, dictGet, h]
    · simp [dictSet, dictGet, h, ih]

theorem dictGet_dictSet_ne (d : List (String × Json)) (key other : String) (v : Json)
    (h : other ≠ key) : dictGet (dictSet d key v) other = dictGet d other := by
  induction d with
  | nil =>
    simp only [dictSet, dictGet]
    rw [if_neg (fun hh => h hh.symm)]
  | cons p rest ih =>
    obtain ⟨k, w⟩ := p
    simp only [dictSet]
    by_cases hk : k = key
    · rw [if_pos hk]
      simp only [dictGet]
      rw [if_neg (fun hh => h (hh.symm.trans hk)), if_neg (fun hh => h (hh.symm.trans hk))]
    · rw [if_neg hk]
      simp only [dictGet]
      by_cases hko : k = other
      · rw [if_pos hko, if_pos hko]
      · rw [if_neg hko, if_neg hko, ih]

/-! ### src/file_manager.py : _process_author_name -/

/-- Python `str()` on JSON scalar values; `none` marks container `repr`s
this embedding does not model. -/
def pyStrScalar : Json → Option String
  | .str s => some s
  | .null => some "None"
  | .bool true => some "True"
  | .bool false => some "False"
  | .num n => some (String.mk (intRepr n))
  | _ => none

/-- Text before the first occurrence of `sep` (the whole list when `sep`
does not occur): Python `s.split(sep)[0]` for nonempty `sep`. -/
def takeUntilMatch (sep : List Char) : List Char → List Char
  | [] => []
  | c :: rest =>
    if sep.isPrefixOf (c :: rest) then [] else c :: takeUntilMatch sep rest

/-- First segment of Python `s.split(sep)`. -/
def splitFirst (s sep : String) : String := String.mk (takeUntilMatch sep.data s.data)

/-- Split a character list at every occurrence of the one-character
separator `sep` (Python `str.split(sep)`). -/
def splitCharAux (sep : Char) : List Char → List Char → List (List Char)
  | [], cur => [cur.reverse]
  | c :: rest, cur =>
    if c == sep then cur.reverse :: splitCharAux sep rest []
    else splitCharAux sep rest (c :: cur)

def generationalSuffixes : List String := ["jr", "sr", "ii", "iii", "iv"]

/-- The multi-author reduction in `_process_author_name`, applied after
sanitization (src/file_manager.py lines 70-82). -/
def reduceAuthor (author : String) : String :=
  if strContains (pyLower author) " and " then pyStrip (splitFirst author " and ")
  else if strContains author " & " then pyStrip (splitFirst author " & ")
  else if strContains author ";" then pyStrip (splitFirst author ";")
  else if 1 < author.data.count ',' then
    let parts := splitCharAux ',' author.data []
    if 2 ≤ parts.length ∧
        ¬ (generationalSuffixes.any (fun suf =>
            strContains (pyLower (String.mk (pyStripChars (parts.getD 1 [])))) suf)) then
      String.mk (pyStripChars (parts.getD 0 []))
    else author
  else author

/-- `FileManager._process_author_name`; `none` marks an author value whose
Python `str()` (a container repr) is not modelled. -/
def process_author_name (raw : Json) : Option String :=
  let s? :=
    match raw with
    | .arr [] => some "Unknown"
    | .arr (x :: _) => pyStrScalar x
    | v => pyStrScalar v
  s?.map (fun a => reduceAuthor (sanitize_filename a))

/-! ### src/file_manager.py : create_new_filename -/

/-- `sanitize_filename` applied to a JSON value: Python falsy values pass the
`not text` test and give "Unknown"; truthy non-strings raise `TypeError`
inside `re.sub` (modelled as `none`). -/
def sanitizeValue : Json → Option String
  | .str s => some (sanitize_filename s)
  | .null => some "Unknown"
  | .bool false => some "Unknown"
  | .bool true => none
  | .num n => if n = 0 then some "Unknown" else none
  | .arr [] => some "Unknown"
  | .arr (_ :: _) => none
  | .obj [] => some "Unknown"
  | .obj (_ :: _) => none

/-- `FileManager.create_new_filename`: `{year} - {author} - {title}.pdf`.
`none` marks a `TypeError` raised inside one of the three sanitizations
(caught by the caller's handler). -/
def create_new_filename (metadata : List (String × Json)) : Option String :=
  match sanitizeValue (dictGetD metadata "year" (.str "Unknown")) with
  | none => none
  | some year =>
    match process_author_name (dictGetD metadata "author" (.str "Unknown")) with
    | none => none
    | some author =>
      match sanitizeValue (dictGetD metadata "title" (.str "Unknown")) with
      | none => none
      | some title => some (year ++ " - " ++ author ++ " - " ++ title ++ ".pdf")

/-! ### src/file_manager.py : copy_pdf_file -/

/-- `pathlib.PurePath.stem`: the final component without its last suffix
(the dot must be neither first nor last character). -/
def pathStem (name : String) : String :=
  if name.data.contains '.' then
    if 0 < name.data.length - 1 - (name.data.reverse.findIdx (fun c => c == '.'))
        ∧ name.data.length - 1 - (name.data.reverse.findIdx (fun c => c == '.'))
          < name.data.length - 1 then
      String.mk (name.data.take
        (name.data.length - 1 - (name.data.reverse.findIdx (fun c => c == '.'))))
    else name
  else name

/-- The conflict candidate `f"{base_stem} ({counter}).pdf"`. -/
def counterName (stem : String) (k : Nat) : String :=
  stem ++ " (" ++ natReprStr k ++ ").pdf"

/-- The `while output_path.exists()` loop of `copy_pdf_file`.  `fuel` is the
termination measure; with `fuel = existing.length + 1` it is never
exhausted (`findCounter_spec`). -/
def findCounter (existing : List String) (stem : String) : Nat → Nat → String
  | k, 0 => counterName stem k
  | k, fuel + 1 =>
    if existing.contains (counterName stem k) then
      findCounter existing stem (k + 1) fuel
    else counterName stem k

/-- Conflict resolution of `copy_pdf_file` (lines 109-114): keep the name if
fresh, else append " (N)" with N = 1, 2, ... -/
def resolveConflicts (existing : List String) (newFilename : String) : String :=
  if existing.contains newFilename then
    findCounter existing (pathStem newFilename) 1 (existing.length + 1)
  else newFilename

/-- Lexical part of `Path.resolve()`: process `.`, `..` and empty
components; components exclude the filesystem root. -/
def resolveComponents (l : List String) : List String :=
  l.foldl
    (fun acc c =>
      if c = "" ∨ c = "." then acc
      else if c = ".." then acc.dropLast
      else acc ++ [c]) []

/-- `pathlib` `/` operator: splitting the right operand on separators; an
absolute right operand replaces the left. -/
def pathAppend (dir : List String) (name : String) : List String :=
  if ['/'].isPrefixOf name.data then
    ((splitCharAux '/' name.data []).map String.mk).filter (fun p => p ≠ "")
  else
    dir ++ ((splitCharAux '/' name.data []).map String.mk).filter (fun p => p ≠ "")

structure CopyResult where
  copied : Bool
  source_filename : String
  output_filename : Option String
  error : Option String
deriving DecidableEq

/-- Lines 107-131 of `copy_pdf_file`: conflict resolution, the containment
check, and the copy itself, for an already generated filename.  The
`ValueError` raised by a failed check is caught by the surrounding handler
and becomes a `copied := false` record. -/
def placeResolved (existing : List String) (sourceName newFilename : String)
    (outputDir : List String) : CopyResult :=
  if (resolveComponents outputDir).isPrefixOf
      (resolveComponents (pathAppend outputDir (resolveConflicts existing newFilename))) then
    { copied := true, source_filename := sourceName,
      output_filename := some (resolveConflicts existing newFilename), error := none }
  else
    { copied := false, source_filename := sourceName, output_filename := none,
      error := some "Output path is outside target directory" }

/-- `FileManager.copy_pdf_file`: generate the name from the metadata, then
place the file.  Exceptions become `copied := false` records. -/
def copy_pdf_file (existing : List String) (sourceName : String)
    (metadata : List (String × Json)) (outputDir : List String) : CopyResult :=
  match create_new_filename metadata with
  | none =>
    { copied := false, source_filename := sourceName, output_filename := none,
      error := some "expected string or bytes-like object" }
  | some newFilename => placeResolved existing sourceName newFilename outputDir

/-! ### src/file_manager.py : update_results_file -/

/-- State of the results file before the update. -/
inductive FileContent where
  | missing
  | unreadable
  | content (s : String)

structure UpdateOutcome where
  returned : Bool
  written : Option (List Json)

/-- `FileManager.update_results_file`.  `loads` abstracts `json.loads`
(`.error` = `JSONDecodeError`); `writeOk` abstracts whether the final
write (or `makedirs`) raises, which the outer handler turns into `False`. -/
def update_results_file (loads : String → Except String Json)
    (current : FileContent) (writeOk : Bool) (newResult : Json) : UpdateOutcome :=
  let existing : List Json :=
    match current with
    | .missing => []
    | .unreadable => []
    | .content s =>
      match loads s with
      | .error _ => []
      | .ok (.arr xs) => xs
      | .ok _ => []
  let updated := existing ++ [newResult]
  if writeOk then { returned := true, written := some updated }
  else { returned := false, written := none }

/-! ### src/metadata_extractor.py : response cleaning -/

/-- `re.sub(r"^```\s*json\s*\n?", "", text, flags=re.IGNORECASE)`. -/
def fenceHeadStrip (l : List Char) : List Char :=
  if l.take 3 = [Char.ofNat 96, Char.ofNat 96, Char.ofNat 96] then
    let r1 := (l.drop 3).dropWhile isPySpace
    if (r1.take 4).map Char.toLower = ['j', 's', 'o', 'n'] then
      (r1.drop 4).dropWhile isPySpace
    else l
  else l

/-- `re.sub(r"\n?```\s*$", "", text)`. -/
def fenceTailStrip (l : List Char) : List Char :=
  let r := l.reverse
  let rws := r.dropWhile isPySpace
  if rws.take 3 = [Char.ofNat 96, Char.ofNat 96, Char.ofNat 96] then
    let rem := rws.drop 3
    let rem2 := if rem.headD ' ' == '\n' then rem.drop 1 else rem
    rem2.reverse
  else l

/-- Slice from the first `{` to the last `}` (inclusive), when both occur. -/
def sliceBraces (l : List Char) : List Char :=
  if l.contains (Char.ofNat 123) ∧ l.contains (Char.ofNat 125) then
    let start := l.findIdx (fun c => c == Char.ofNat 123)
    let stop := l.length - 1 - (l.reverse.findIdx (fun c => c == Char.ofNat 125)) + 1
    (l.drop start).take (stop - start)
  else l

/-- The cleaning pipeline of `_parse_api_response` (lines 69-82). -/
def cleanResponseText (s : String) : String :=
  let t1 := pyStripChars s.data
  let t2 := fenceHeadStrip t1
  let t3 := fenceTailStrip t2
  let t4 := pyStripChars t3
  String.mk (sliceBraces t4)

/-! ### src/metadata_extractor.py : response records -/

/-- `MetadataExtractor._create_fallback_response`. -/
def create_fallback_response (filename rawResponse : String)
    (error : Option String) : List (String × Json) :=
  [("title", .str "Could not parse JSON response"),
   ("author", .str "Could not parse JSON response"),
   ("year", .str "Could not parse JSON response"),
   ("source_filename", .str filename),
   ("raw_response", .str
     (if 500 < rawResponse.data.length
      then String.mk (rawResponse.data.take 500) ++ "..." else rawResponse)),
   ("parse_error", match error with | some e => .str e | none => .null)]

/-- `MetadataExtractor._create_error_response` (same shape in main.py). -/
def create_error_response (errorMessage filename : String) : List (String × Json) :=
  [("title", .str "Error"), ("author", .str "Error"), ("year", .str "Error"),
   ("source_filename", .str filename), ("error", .str errorMessage)]

/-- `if field not in result: result[field] = "Not found"` for one field. -/
def dictEnsure (d : List (String × Json)) (key : String) (v : Json) :
    List (String × Json) :=
  if dictContains d key then d else dictSet d key v

/-- `MetadataExtractor._parse_api_response`.  `loads` abstracts `json.loads`
on the cleaned text; `reprFn` abstracts Python `str()` on the parsed value
for the non-dict branch. -/
def parse_api_response (loads : String → Except String Json)
    (reprFn : Json → String) (responseText filename : String) :
    List (String × Json) :=
  match loads (cleanResponseText responseText) with
  | .error e => create_fallback_response filename responseText (some e)
  | .ok (.obj kvs) =>
    let r1 := dictEnsure kvs "title" (.str "Not found")
    let r2 := dictEnsure r1 "author" (.str "Not found")
    let r3 := dictEnsure r2 "year" (.str "Not found")
    dictSet r3 "source_filename" (.str filename)
  | .ok v => create_fallback_response filename (reprFn v) none

/-! ### src/metadata_extractor.py : retry classification and loop -/

/-- `MetadataExtractor._is_rate_limit_error`. -/
def is_rate_limit_error (errorStr : String) : Bool :=
  strContains errorStr "429" || strContains (pyLower errorStr) "quota" ||
  strContains (pyLower errorStr) "rate"

def transientIndicators : List String :=
  ["timeout", "connection", "network", "temporary", "unavailable",
   "service", "502", "503", "504", "gateway"]

/-- `MetadataExtractor._is_transient_error`. -/
def is_transient_error (errorStr : String) : Bool :=
  transientIndicators.any (fun ind => strContains (pyLower errorStr) ind)

/-- Outcome of one `self.model.generate_content` call: a response text or a
raised exception's message. -/
inductive ApiOutcome where
  | ok (responseText : String)
  | exn (msg : String)

/-- The `for attempt in range(max_retries)` loop of
`extract_metadata_from_images` (lines 173-216).  Returns the record and the
list of back-off delays slept, in order.  `fuel` counts the remaining loop
iterations; exhaustion is the fall-through "Failed after" return. -/
def extract_attempts (loads : String → Except String Json) (reprFn : Json → String)
    (call : Nat → ApiOutcome) (filename : String) :
    Nat → Nat → List (String × Json) × List Nat
  | _, 0 =>
    (create_error_response
      ("Failed after " ++ natReprStr DEFAULT_MAX_RETRIES ++ " attempts") filename, [])
  | attempt, fuel + 1 =>
    match call attempt with
    | .ok text => (parse_api_response loads reprFn text filename, [])
    | .exn msg =>
      if is_rate_limit_error msg then
        if attempt < DEFAULT_MAX_RETRIES - 1 then
          let delay := DEFAULT_RETRY_BASE_DELAY * 2 ^ attempt
          let rest := extract_attempts loads reprFn call filename (attempt + 1) fuel
          (rest.1, delay :: rest.2)
        else
          (create_error_response
            ("Rate limit exceeded after " ++ natReprStr DEFAULT_MAX_RETRIES ++
             " attempts: " ++ msg) filename, [])
      else if is_transient_error msg then
        if attempt < DEFAULT_MAX_RETRIES - 1 then
          let delay := min (5 * 2 ^ attempt) 60
          let rest := extract_attempts loads reprFn call filename (attempt + 1) fuel
          (rest.1, delay :: rest.2)
        else
          (create_error_response
            ("Transient error exceeded after " ++ natReprStr DEFAULT_MAX_RETRIES ++
             " attempts: " ++ msg) filename, [])
      else
        (create_error_response ("API call failed: " ++ msg) filename, [])

/-- `MetadataExtractor.extract_metadata_from_images`. -/
def extract_metadata_from_images (loads : String → Except String Json)
    (reprFn : Json → String) (call : Nat → ApiOutcome) (numImages : Nat)
    (filename : String) : List (String × Json) × List Nat :=
  if numImages = 0 then (create_error_response "No images to process" filename, [])
  else extract_attempts loads reprFn call filename 0 DEFAULT_MAX_RETRIES

/-! ### src/main.py : the copy gate of process_pdf -/

/-- Lines 85-89 of src/main.py: copy only when requested, an output
directory is given, and the record carries no "error" key. -/
def processPdfCopyGate (metadata : List (String × Json)) (copyFiles : Bool)
    (outputDir : Option (List String)) (existing : List String)
    (sourceName : String) : Option CopyResult :=
  match outputDir with
  | some d =>
    if copyFiles && !(dictContains metadata "error") then
      some (copy_pdf_file existing sourceName metadata d)
    else none
  | none => none

/-! ### src/main.py : rate limiting in process_directory -/

/-- One processed file: its record and the wall-clock time its processing
took (`time.time() - processing_start`), as a rational. -/
structure FileRun where
  result : List (String × Json)
  processingTime : ℚ

/-- Lines 186-194 of src/main.py: the sleep issued after one file, `none`
when no sleep happens. -/
def rateSleep (isLast : Bool) (f : FileRun) : Option ℚ :=
  if !isLast && !(dictContains f.result "error") then
    let remaining := max 0 (DEFAULT_RATE_LIMIT_DELAY - f.processingTime)
    if 0 < remaining then some remaining else none
  else none

/-- The per-file sleeps of the `process_directory` loop, in order. -/
def directorySleeps : List FileRun → List (Option ℚ)
  | [] => []
  | [f] => [rateSleep true f]
  | f :: g :: rest => rateSleep false f :: directorySleeps (g :: rest)

/-! ### Helper lemmas for dictEnsure -/

theorem dictContains_dictEnsure (d : List (String × Json)) (key : String) (v : Json) :
    dictContains (dictEnsure d key v) key = true := by
  unfold dictEnsure
  by_cases h : dictContains d key
  · rwa [if_pos h]
  · rw [if_neg h]
    unfold dictContains
    rw [dictGet_dictSet]
    rfl

theorem dictGet_dictEnsure_ne (d : List (String × Json)) (key other : String)
    (v : Json) (h : other ≠ key) :
    dictGet (dictEnsure d key v) other = dictGet d other := by
  unfold dictEnsure
  split
  · rfl
  · exact dictGet_dictSet_ne d key other v h

theorem dictGet_dictEnsure_missing (d : List (String × Json)) (key : String)
    (v : Json) (h : dictGet d key = none) :
    dictGet (dictEnsure d key v) key = some v := by
  unfold dictEnsure
  rw [if_neg (by simp [dictContains, h]), dictGet_dictSet]

theorem dictContains_dictEnsure_other (d : List (String × Json)) (key other : String)
    (v : Json) (h : other ≠ key) :
    dictContains (dictEnsure d key v) other = dictContains d other := by
  unfold dictContains
  rw [dictGet_dictEnsure_ne d key other v h]

/-! ### Claim C4 -/

/-- C4: for every input string, `sanitize_filename` returns a string with
none of the filesystem-forbidden characters and none of the denylist
symbols, of length at most DEFAULT_MAX_FILENAME_LENGTH (100); and on the
empty string or the sentinel "Not found" it returns "Unknown". -/
theorem c4_sanitize_invariants (s : String) :
    ((sanitize_filename s).data.all
      (fun c => !(forbiddenChars.contains c) && !(symbolChars.contains c)) = true) ∧
    (sanitize_filename s).length ≤ DEFAULT_MAX_FILENAME_LENGTH ∧
    sanitize_filename "" = "Unknown" ∧
    sanitize_filename "Not found" = "Unknown" := by
  refine ⟨?_, ?_, by decide, by decide⟩
  · by_cases hs : s = "" || s = "Not found"
    · rw [sanitize_filename, if_pos hs]
      decide
    · rw [sanitize_filename, if_neg hs]
      rw [List.all_eq_true]
      intro c hc
      have h1 := mem_pyStripChars ((List.take_sublist _ _).mem hc)
      obtain ⟨h2, hsym⟩ := List.mem_filter.mp h1
      rcases mem_collapseWs h2 with hsp | h4
      · subst hsp
        decide
      · rw [replaceNewlines, List.mem_map] at h4
        obtain ⟨x, hx, hcx⟩ := h4
        obtain ⟨hxmem, hforb⟩ := List.mem_filter.mp hx
        by_cases hxn : x == '\n'
        · rw [if_pos hxn] at hcx
          rw [← hcx]
          decide
        · rw [if_neg hxn] at hcx
          subst hcx
          rw [Bool.and_eq_true]
          exact ⟨hforb, hsym⟩
  · by_cases hs : s = "" || s = "Not found"
    · rw [sanitize_filename, if_pos hs]
      decide
    · rw [sanitize_filename, if_neg hs]
      show (List.take DEFAULT_MAX_FILENAME_LENGTH _).length ≤ DEFAULT_MAX_FILENAME_LENGTH
      exact List.length_take_le _ _

/-! ### Claim C6 -/

/-- C6: for every model response that parses successfully to a JSON object,
the returned record has title, author and year present (any absent field is
set to the sentinel "Not found"), and its source_filename equals the known
input filename regardless of what the response contained. -/
theorem c6_parse_success_fields (loads : String → Except String Json)
    (reprFn : Json → String) (text filename : String)
    (kvs : List (String × Json))
    (hp : loads (cleanResponseText text) = .ok (.obj kvs)) :
    dictContains (parse_api_response loads reprFn text filename) "title" = true ∧
    dictContains (parse_api_response loads reprFn text filename) "author" = true ∧
    dictContains (parse_api_response loads reprFn text filename) "year" = true ∧
    dictGet (parse_api_response loads reprFn text filename) "source_filename"
      = some (.str filename) ∧
    (dictGet kvs "title" = none →
      dictGet (parse_api_response loads reprFn text filename) "title"
        = some (.str "Not found")) ∧
    (dictGet kvs "author" = none →
      dictGet (parse_api_response loads reprFn text filename) "author"
        = some (.str "Not found")) ∧
    (dictGet kvs "year" = none →
      dictGet (parse_api_response loads reprFn text filename) "year"
        = some (.str "Not found")) := by
  have hr : parse_api_response loads reprFn text filename
      = dictSet (dictEnsure (dictEnsure (dictEnsure kvs "title" (.str "Not found"))
          "author" (.str "Not found")) "year" (.str "Not found"))
          "source_filename" (.str filename) := by
    unfold parse_api_response
    rw [hp]
  rw [hr]
  refine ⟨?_, ?_, ?_, ?_, ?_, ?_, ?_⟩
  · unfold dictContains
    rw [dictGet_dictSet_ne _ _ _ _ (by decide),
      dictGet_dictEnsure_ne _ _ _ _ (by decide),
      dictGet_dictEnsure_ne _ _ _ _ (by decide)]
    have := dictContains_dictEnsure kvs "title" (.str "Not found")
    unfold dictContains at this
    exact this
  · unfold dictContains
    rw [dictGet_dictSet_ne _ _ _ _ (by decide),
      dictGet_dictEnsure_ne _ _ _ _ (by decide)]
    have := dictContains_dictEnsure (dictEnsure kvs "title" (.str "Not found"))
      "author" (.str "Not found")
    unfold dictContains at this
    exact this
  · unfold dictContains
    rw [dictGet_dictSet_ne _ _ _ _ (by decide)]
    have := dictContains_dictEnsure
      (dictEnsure (dictEnsure kvs "title" (.str "Not found")) "author" (.str "Not found"))
      "year" (.str "Not found")
    unfold dictContains at this
    exact this
  · exact dictGet_dictSet _ _ _
  · intro hmiss
    rw [dictGet_dictSet_ne _ _ _ _ (by decide),
      dictGet_dictEnsure_ne _ _ _ _ (by decide),
      dictGet_dictEnsure_ne _ _ _ _ (by decide)]
    exact dictGet_dictEnsure_missing _ _ _ hmiss
  · intro hmiss
    rw [dictGet_dictSet_ne _ _ _ _ (by decide),
      dictGet_dictEnsure_ne _ _ _ _ (by decide)]
    apply dictGet_dictEnsure_missing
    rw [dictGet_dictEnsure_ne _ _ _ _ (by decide)]
    exact hmiss
  · intro hmiss
    rw [dictGet_dictSet_ne _ _ _ _ (by decide)]
    apply dictGet_dictEnsure_missing
    rw [dictGet_dictEnsure_ne _ _ _ _ (by decide),
      dictGet_dictEnsure_ne _ _ _ _ (by decide)]
    exact hmiss

/-- C6 witness: a concrete response whose object lacks the year field. -/
theorem c6_witness :
    (fun (_ : String) => (Except.ok (Json.obj [("title", Json.str "T")])
        : Except String Json)) (cleanResponseText "x") = .ok (.obj [("title", Json.str "T")]) ∧
    dictGet (parse_api_response
        (fun _ => .ok (.obj [("title", Json.str "T")])) (fun _ => "") "x" "a.pdf")
      "source_filename" = some (.str "a.pdf") ∧
    dictGet (parse_api_response
        (fun _ => .ok (.obj [("title", Json.str "T")])) (fun _ => "") "x" "a.pdf")
      "year" = some (.str "Not found") :=
  ⟨rfl,
   (c6_parse_success_fields (fun _ => .ok (.obj [("title", Json.str "T")]))
     (fun _ => "") "x" "a.pdf" [("title", Json.str "T")] rfl).2.2.2.1,
   (c6_parse_success_fields (fun _ => .ok (.obj [("title", Json.str "T")]))
     (fun _ => "") "x" "a.pdf" [("title", Json.str "T")] rfl).2.2.2.2.2.2 rfl⟩

/-! ### Claim C10 -/

/-- C10: when the results file is missing, unreadable, invalid JSON, or a
JSON value that is not an array, the previous content is discarded and the
file is rewritten as an array containing only the appended records (the new
record alone on the first such call); the update returns a boolean, `false`
exactly on write failure (in which case nothing is written). -/
theorem c10_update_results (loads : String → Except String Json)
    (current : FileContent) (writeOk : Bool) (newResult : Json) :
    ((update_results_file loads current writeOk newResult).returned = writeOk) ∧
    (writeOk = false →
      (update_results_file loads current writeOk newResult).written = none) ∧
    (writeOk = true → current = .missing →
      (update_results_file loads current writeOk newResult).written
        = some [newResult]) ∧
    (writeOk = true → current = .unreadable →
      (update_results_file loads current writeOk newResult).written
        = some [newResult]) ∧
    (∀ s e, writeOk = true → current = .content s → loads s = .error e →
      (update_results_file loads current writeOk newResult).written
        = some [newResult]) ∧
    (∀ s v, writeOk = true → current = .content s → loads s = .ok v →
      (∀ xs, v ≠ .arr xs) →
      (update_results_file loads current writeOk newResult).written
        = some [newResult]) ∧
    (∀ s xs, writeOk = true → current = .content s → loads s = .ok (.arr xs) →
      (update_results_file loads current writeOk newResult).written
        = some (xs ++ [newResult])) := by
  refine ⟨?_, ?_, ?_, ?_, ?_, ?_, ?_⟩
  · unfold update_results_file
    cases writeOk <;> rfl
  · intro hw
    subst hw
    unfold update_results_file
    rfl
  · intro hw hc
    subst hw; subst hc
    rfl
  · intro hw hc
    subst hw; subst hc
    rfl
  · intro s e hw hc hl
    subst hw; subst hc
    simp [update_results_file, hl]
  · intro s v hw hc hl hne
    subst hw; subst hc
    cases v with
    | arr xs => exact absurd rfl (hne xs)
    | null => simp [update_results_file, hl]
    | bool b => simp [update_results_file, hl]
    | num n => simp [update_results_file, hl]
    | str t => simp [update_results_file, hl]
    | obj kvs => simp [update_results_file, hl]
  · intro s xs hw hc hl
    subst hw; subst hc
    simp [update_results_file, hl]

/-- C10 witness: first call with a missing file and a working write. -/
theorem c10_witness :
    (update_results_file (fun _ => .error "nope") FileContent.missing true
      (Json.str "r")).written = some [Json.str "r"] :=
  (c10_update_results (fun _ => .error "nope") FileContent.missing true
    (Json.str "r")).2.2.1 rfl rfl

/-! ### Claim C8 -/

theorem directorySleeps_length :
    ∀ runs : List FileRun, (directorySleeps runs).length = runs.length
  | [] => rfl
  | [_] => rfl
  | f :: g :: rest => by
    show (rateSleep false f :: directorySleeps (g :: rest)).length
      = (g :: rest).length + 1
    rw [List.length_cons, directorySleeps_length (g :: rest)]

theorem succ_beq_succ_eq (a b : Nat) : ((a + 1) == (b + 1)) = (a == b) := by
  by_cases h : a = b
  · subst h
    simp
  · have h1 : ((a + 1) == (b + 1)) = false := by simp [h]
    have h2 : (a == b) = false := by simp [h]
    rw [h1, h2]

theorem directorySleeps_getD :
    ∀ (runs : List FileRun) (i : Nat), i < runs.length →
      (directorySleeps runs).getD i none
        = rateSleep ((i + 1) == runs.length) (runs.getD i ⟨[], 0⟩)
  | [], i, h => absurd h (Nat.not_lt_zero i)
  | [_], 0, _ => rfl
  | [_], i + 1, h => absurd h (by simp)
  | _ :: _ :: _, 0, _ => rfl
  | a :: g :: rest, i + 1, h => by
    show (rateSleep false a :: directorySleeps (g :: rest)).getD (i + 1) none
      = rateSleep ((i + 1 + 1) == (a :: g :: rest).length)
          ((a :: g :: rest).getD (i + 1) ⟨[], 0⟩)
    rw [List.getD_cons_succ, List.getD_cons_succ]
    rw [directorySleeps_getD (g :: rest) i (Nat.lt_of_succ_lt_succ h)]
    rw [show ((i + 1 + 1) == ((a :: g :: rest).length))
        = ((i + 1) == ((g :: rest).length)) from by
      rw [List.length_cons]; exact succ_beq_succ_eq _ _]

/-- C8: in a directory run a sleep is issued after a file only when that
file is not the last one and its record has no "error" key, and the sleep
duration is `max 0 (DEFAULT_RATE_LIMIT_DELAY - processingTime)` (no sleep
when that is zero); records with an error are never followed by a
throttling sleep. -/
theorem c8_rate_limit_spacing (runs : List FileRun) :
    (∀ f : FileRun, rateSleep true f = none) ∧
    (∀ f : FileRun, dictContains f.result "error" = true → rateSleep false f = none) ∧
    (∀ f : FileRun, dictContains f.result "error" = false →
      rateSleep false f =
        (if 0 < max 0 (DEFAULT_RATE_LIMIT_DELAY - f.processingTime)
         then some (max 0 (DEFAULT_RATE_LIMIT_DELAY - f.processingTime)) else none)) ∧
    ((directorySleeps runs).length = runs.length) ∧
    (∀ i, i < runs.length →
      (directorySleeps runs).getD i none
        = rateSleep ((i + 1) == runs.length) (runs.getD i ⟨[], 0⟩)) := by
  refine ⟨?_, ?_, ?_, directorySleeps_length runs,
    fun i h => directorySleeps_getD runs i h⟩
  · intro f
    rfl
  · intro f h
    unfold rateSleep
    rw [h]
    rfl
  · intro f h
    unfold rateSleep
    rw [h]
    rfl

/-- C8 witness: a two-file run whose first file succeeded after 2 seconds. -/
theorem c8_witness :
    (0 < [(⟨[], 2⟩ : FileRun), ⟨[], 3⟩].length) ∧
    (directorySleeps [(⟨[], 2⟩ : FileRun), ⟨[], 3⟩]).getD 0 none
      = rateSleep ((0 + 1) == [(⟨[], 2⟩ : FileRun), ⟨[], 3⟩].length)
          ([(⟨[], 2⟩ : FileRun), ⟨[], 3⟩].getD 0 ⟨[], 0⟩) ∧
    dictContains (⟨[], (2 : ℚ)⟩ : FileRun).result "error" = false ∧
    rateSleep false ⟨[], (2 : ℚ)⟩ =
      (if 0 < max 0 (DEFAULT_RATE_LIMIT_DELAY - (2 : ℚ))
       then some (max 0 (DEFAULT_RATE_LIMIT_DELAY - (2 : ℚ))) else none) :=
  ⟨by decide,
   (c8_rate_limit_spacing [⟨[], 2⟩, ⟨[], 3⟩]).2.2.2.2 0 (by decide),
   rfl,
   (c8_rate_limit_spacing []).2.2.1 ⟨[], (2 : ℚ)⟩ rfl⟩

/-! ### Claim C1 -/

/-- C1: on every attempt whose model call raises, the exception is
classified from its message text: rate-limit (contains "429", or "quota" or
"rate" case-insensitively) retries after `DEFAULT_RETRY_BASE_DELAY * 2 ^
attempt` seconds (base 60); otherwise transient (lowercased message
contains one of the transient indicators) retries after `min (5 * 2 ^
attempt) 60` seconds; anything else returns an error record carrying the
raw exception message immediately.  The classification runs on the current
attempt's message. -/
theorem c1_retry_classification (loads : String → Except String Json)
    (reprFn : Json → String) (call : Nat → ApiOutcome) (filename : String)
    (attempt fuel : Nat) (msg : String) (hc : call attempt = .exn msg) :
    (is_rate_limit_error msg
      = (strContains msg "429" || strContains (pyLower msg) "quota" ||
         strContains (pyLower msg) "rate")) ∧
    (is_transient_error msg
      = transientIndicators.any (fun ind => strContains (pyLower msg) ind)) ∧
    DEFAULT_RETRY_BASE_DELAY = 60 ∧
    (is_rate_limit_error msg = true → attempt < DEFAULT_MAX_RETRIES - 1 →
      extract_attempts loads reprFn call filename attempt (fuel + 1)
        = ((extract_attempts loads reprFn call filename (attempt + 1) fuel).1,
           DEFAULT_RETRY_BASE_DELAY * 2 ^ attempt ::
             (extract_attempts loads reprFn call filename (attempt + 1) fuel).2)) ∧
    (is_rate_limit_error msg = false → is_transient_error msg = true →
      attempt < DEFAULT_MAX_RETRIES - 1 →
      extract_attempts loads reprFn call filename attempt (fuel + 1)
        = ((extract_attempts loads reprFn call filename (attempt + 1) fuel).1,
           min (5 * 2 ^ attempt) 60 ::
             (extract_attempts loads reprFn call filename (attempt + 1) fuel).2)) ∧
    (is_rate_limit_error msg = false → is_transient_error msg = false →
      extract_attempts loads reprFn call filename attempt (fuel + 1)
        = (create_error_response ("API call failed: " ++ msg) filename, [])) := by
  refine ⟨rfl, rfl, rfl, ?_, ?_, ?_⟩
  · intro h1 h2
    rw [extract_attempts, hc]
    simp only [h1, if_true]
    rw [if_pos h2]
  · intro h1 h2 h3
    rw [extract_attempts, hc]
    simp only [h1, h2, Bool.false_eq_true, if_false, if_true]
    rw [if_pos h3]
  · intro h1 h2
    rw [extract_attempts, hc]
    simp only [h1, h2, Bool.false_eq_true, if_false]

/-- C1 witness: a "429 Too Many Requests" exception on attempt 0 backs off
60 seconds; an "Invalid request" exception is not retried. -/
theorem c1_witness :
    ((fun _ => ApiOutcome.exn "429 Too Many Requests") 0
        = ApiOutcome.exn "429 Too Many Requests") ∧
    is_rate_limit_error "429 Too Many Requests" = true ∧
    (0 < DEFAULT_MAX_RETRIES - 1) ∧
    extract_attempts (fun _ => .error "e") (fun _ => "")
        (fun _ => ApiOutcome.exn "429 Too Many Requests") "doc.pdf" 0 3
      = ((extract_attempts (fun _ => .error "e") (fun _ => "")
            (fun _ => ApiOutcome.exn "429 Too Many Requests") "doc.pdf" 1 2).1,
         DEFAULT_RETRY_BASE_DELAY * 2 ^ 0 ::
           (extract_attempts (fun _ => .error "e") (fun _ => "")
             (fun _ => ApiOutcome.exn "429 Too Many Requests") "doc.pdf" 1 2).2) ∧
    extract_attempts (fun _ => .error "e") (fun _ => "")
        (fun _ => ApiOutcome.exn "Invalid request") "doc.pdf" 0 3
      = (create_error_response ("API call failed: " ++ "Invalid request") "doc.pdf", []) :=
  ⟨rfl, by decide, by decide,
   (c1_retry_classification (fun _ => .error "e") (fun _ => "")
     (fun _ => ApiOutcome.exn "429 Too Many Requests") "doc.pdf" 0 2
     "429 Too Many Requests" rfl).2.2.2.1 (by decide) (by decide),
   (c1_retry_classification (fun _ => .error "e") (fun _ => "")
     (fun _ => ApiOutcome.exn "Invalid request") "doc.pdf" 0 2
     "Invalid request" rfl).2.2.2.2.2 (by decide) (by decide)⟩

/-! ### Claim C3 -/

/-- C3 counterexample: "Driver" is not a generational suffix, so the claim
prescribes keeping only "Smith"; the code checks the suffixes by substring
containment ("driver" contains "iv") and leaves the string unchanged. -/
theorem c3_counterexample :
    process_author_name (.str "Smith, Driver, Lee") = some "Smith, Driver, Lee" ∧
    ¬ process_author_name (.str "Smith, Driver, Lee") = some "Smith" := by
  refine ⟨by decide, ?_⟩
  intro h
  have h1 : process_author_name (.str "Smith, Driver, Lee")
      = some "Smith, Driver, Lee" := by decide
  rw [h1] at h
  injection h with h2
  exact absurd h2 (by decide)

/-- C3 amended: after list-to-first-element normalization and sanitization,
the reduction applies in priority order: if the lowercased string contains
" and ", split the original string on the case-sensitive " and " and keep
the segment before the first occurrence (unchanged but stripped when only a
case-variant occurs); else if it contains " & ", keep the segment before
it; else if it contains ";", keep the segment before it; else if it has
more than one comma, keep the first comma-delimited segment exactly when
the stripped, lowercased second segment does not contain any of jr, sr, ii,
iii, iv as a substring.  "Smith, J. and Jones, K." reduces to "Smith, J."
and "Smith, Jr." is unchanged. -/
theorem c3_author_reduction (author : String) (raw : Json) :
    (∀ a rest, raw = .arr (Json.str a :: rest) →
      process_author_name raw = process_author_name (.str a)) ∧
    (process_author_name (.str author)
      = some (reduceAuthor (sanitize_filename author))) ∧
    (strContains (pyLower author) " and " = true →
      reduceAuthor author = pyStrip (splitFirst author " and ")) ∧
    (strContains (pyLower author) " and " = false →
      strContains author " & " = true →
      reduceAuthor author = pyStrip (splitFirst author " & ")) ∧
    (strContains (pyLower author) " and " = false →
      strContains author " & " = false →
      strContains author ";" = true →
      reduceAuthor author = pyStrip (splitFirst author ";")) ∧
    (∀ parts, parts = splitCharAux ',' author.data [] →
      strContains (pyLower author) " and " = false →
      strContains author " & " = false →
      strContains author ";" = false →
      1 < author.data.count ',' →
      2 ≤ parts.length →
      (generationalSuffixes.any (fun suf =>
        strContains (pyLower (String.mk (pyStripChars (parts.getD 1 [])))) suf))
        = false →
      reduceAuthor author = String.mk (pyStripChars (parts.getD 0 []))) ∧
    reduceAuthor (sanitize_filename "Smith, J. and Jones, K.") = "Smith, J." ∧
    reduceAuthor (sanitize_filename "Smith, Jr.") = "Smith, Jr." := by
  refine ⟨?_, rfl, ?_, ?_, ?_, ?_, by decide, by decide⟩
  · intro a rest hr
    subst hr
    rfl
  · intro h1
    rw [reduceAuthor, if_pos h1]
  · intro h1 h2
    rw [reduceAuthor, if_neg (by rw [h1]; exact Bool.false_ne_true), if_pos h2]
  · intro h1 h2 h3
    rw [reduceAuthor, if_neg (by rw [h1]; exact Bool.false_ne_true),
      if_neg (by rw [h2]; exact Bool.false_ne_true), if_pos h3]
  · intro parts hparts h1 h2 h3 h4 h5 h6
    subst hparts
    rw [reduceAuthor, if_neg (by rw [h1]; exact Bool.false_ne_true),
      if_neg (by rw [h2]; exact Bool.false_ne_true),
      if_neg (by rw [h3]; exact Bool.false_ne_true), if_pos h4]
    rw [if_pos ⟨h5, by rw [h6]; exact Bool.false_ne_true⟩]

/-- C3 witness: the claim's own positive example, "Smith, J. and Jones, K.". -/
theorem c3_witness :
    strContains (pyLower "Smith, J. and Jones, K.") " and " = true ∧
    reduceAuthor "Smith, J. and Jones, K."
      = pyStrip (splitFirst "Smith, J. and Jones, K." " and ") :=
  ⟨by decide,
   (c3_author_reduction "Smith, J. and Jones, K." Json.null).2.2.1 (by decide)⟩

/-! ### Claim C2 -/

/-- A `json.loads` stand-in that always fails, as on non-JSON input. -/
def stubFailLoads : String → Except String Json :=
  fun _ => .error "Expecting value: line 1 column 1 (char 0)"

/-- A `str()` stand-in for parsed values. -/
def stubRepr : Json → String := fun _ => ""

/-- C2 counterexample: on a parse failure the fallback record's title is
the placeholder "Could not parse JSON response", not the claimed sentinel
"Not found". -/
theorem c2_counterexample :
    dictGet (parse_api_response stubFailLoads stubRepr "not json" "doc.pdf")
      "title" = some (.str "Could not parse JSON response") ∧
    ¬ dictGet (parse_api_response stubFailLoads stubRepr "not json" "doc.pdf")
      "title" = some (.str "Not found") := by
  refine ⟨rfl, ?_⟩
  intro h
  have h1 : dictGet (parse_api_response stubFailLoads stubRepr "not json" "doc.pdf")
      "title" = some (.str "Could not parse JSON response") := rfl
  rw [h1] at h
  injection h with h2
  injection h2 with h3
  exact absurd h3 (by decide)

/-- C2 amended: when structured parsing of the cleaned response fails, the
extractor returns the fallback record built from the original response
text and the parse error message; when parsing yields a non-record value,
the fallback is built from the string rendering of that value with a null
parse_error.  The fallback's title/author/year hold the placeholder
"Could not parse JSON response", source_filename is the known filename,
raw_response is the raw text truncated to its first 500 characters with an
ellipsis appended when longer, and no exception propagates (the function is
total). -/
theorem c2_parse_failure_fallback (loads : String → Except String Json)
    (reprFn : Json → String) (text filename : String) :
    (∀ e, loads (cleanResponseText text) = .error e →
      parse_api_response loads reprFn text filename
        = create_fallback_response filename text (some e)) ∧
    (∀ v, loads (cleanResponseText text) = .ok v → (∀ kvs, v ≠ .obj kvs) →
      parse_api_response loads reprFn text filename
        = create_fallback_response filename (reprFn v) none) ∧
    (∀ fn raw err,
      dictGet (create_fallback_response fn raw err) "title"
        = some (.str "Could not parse JSON response") ∧
      dictGet (create_fallback_response fn raw err) "author"
        = some (.str "Could not parse JSON response") ∧
      dictGet (create_fallback_response fn raw err) "year"
        = some (.str "Could not parse JSON response") ∧
      dictGet (create_fallback_response fn raw err) "source_filename"
        = some (.str fn) ∧
      dictGet (create_fallback_response fn raw err) "raw_response"
        = some (.str (if 500 < raw.data.length
            then String.mk (raw.data.take 500) ++ "..." else raw)) ∧
      dictGet (create_fallback_response fn raw err) "parse_error"
        = some (match err with | some e => Json.str e | none => Json.null)) := by
  refine ⟨?_, ?_, ?_⟩
  · intro e he
    unfold parse_api_response
    rw [he]
  · intro v hv hne
    unfold parse_api_response
    rw [hv]
    cases v with
    | obj kvs => exact absurd rfl (hne kvs)
    | null => rfl
    | bool b => rfl
    | num n => rfl
    | str t => rfl
    | arr xs => rfl
  · intro fn raw err
    exact ⟨rfl, rfl, rfl, rfl, rfl, rfl⟩

/-- C2 witness: a concrete unparseable response goes through the
parse-failure branch. -/
theorem c2_witness :
    stubFailLoads (cleanResponseText "not json")
      = .error "Expecting value: line 1 column 1 (char 0)" ∧
    parse_api_response stubFailLoads stubRepr "not json" "doc.pdf"
      = create_fallback_response "doc.pdf" "not json"
          (some "Expecting value: line 1 column 1 (char 0)") :=
  ⟨rfl,
   (c2_parse_failure_fallback stubFailLoads stubRepr "not json" "doc.pdf").1
     "Expecting value: line 1 column 1 (char 0)" rfl⟩

/-! ### Claim C5 -/

theorem counterName_data (stem : String) (k : Nat) :
    (counterName stem k).data
      = stem.data ++ (" (".data ++ (natRepr k ++ ").pdf".data)) := by
  show (stem ++ " (" ++ natReprStr k ++ ").pdf").data = _
  rw [String.data_append, String.data_append, String.data_append]
  show ((stem.data ++ " (".data) ++ natRepr k) ++ ").pdf".data = _
  simp [List.append_assoc]

theorem counterName_inj (stem : String) {a b : Nat}
    (h : counterName stem a = counterName stem b) : a = b := by
  have hd := congrArg String.data h
  rw [counterName_data, counterName_data] at hd
  have h1 := List.append_cancel_left hd
  have h2 := List.append_cancel_left h1
  have h3 := List.append_cancel_right h2
  exact natRepr_injective h3

theorem findCounter_spec (existing : List String) (stem : String) :
    ∀ fuel k, (∃ j, k ≤ j ∧ j < k + fuel ∧ counterName stem j ∉ existing) →
      findCounter existing stem k fuel ∉ existing ∧
      ∃ j, k ≤ j ∧ findCounter existing stem k fuel = counterName stem j ∧
        ∀ i, k ≤ i → i < j → counterName stem i ∈ existing := by
  intro fuel
  induction fuel with
  | zero =>
    intro k hj
    obtain ⟨j, hj1, hj2, _⟩ := hj
    omega
  | succ fuel ih =>
    intro k hj
    obtain ⟨j, hj1, hj2, hj3⟩ := hj
    by_cases hk : existing.contains (counterName stem k)
    · have hkm : counterName stem k ∈ existing := List.elem_iff.mp hk
      have hne : j ≠ k := fun he => hj3 (he ▸ hkm)
      have hrec := ih (k + 1) ⟨j, by omega, by omega, hj3⟩
      rw [findCounter, if_pos hk]
      refine ⟨hrec.1, ?_⟩
      obtain ⟨m, hm1, hm2, hm3⟩ := hrec.2
      refine ⟨m, by omega, hm2, ?_⟩
      intro i hi1 hi2
      by_cases hik : i = k
      · exact hik ▸ hkm
      · exact hm3 i (by omega) hi2
    · rw [findCounter, if_neg hk]
      have hnm : counterName stem k ∉ existing := fun hm => hk (List.elem_iff.mpr hm)
      exact ⟨hnm, k, le_refl k, rfl,
        fun i hi1 hi2 => absurd (lt_of_le_of_lt hi1 hi2) (lt_irrefl k)⟩

theorem counter_pigeonhole (existing : List String) (stem : String) :
    ∃ j, 1 ≤ j ∧ j < 1 + (existing.length + 1) ∧ counterName stem j ∉ existing := by
  by_contra hcon
  push_neg at hcon
  have hsub : (List.range' 1 (existing.length + 1)).map (counterName stem)
      ⊆ existing := by
    intro x hx
    rw [List.mem_map] at hx
    obtain ⟨j, hj, rfl⟩ := hx
    rw [List.mem_range'] at hj
    obtain ⟨i, hi, rfl⟩ := hj
    exact hcon _ (by omega) (by omega)
  have hnd : ((List.range' 1 (existing.length + 1)).map (counterName stem)).Nodup :=
    (List.nodup_range' 1 (existing.length + 1)).map
      (fun a b hab => counterName_inj stem hab)
  have hle := (List.subperm_of_subset hnd hsub).length_le
  rw [List.length_map, List.length_range'] at hle
  omega

/-- C5: conflict resolution never returns a name already present in the
output directory (no existing file is overwritten); a fresh candidate is
kept as is; a colliding candidate becomes `stem (N).pdf` with the smallest
N ≥ 1 whose name is fresh; on the claim's concrete example the first
collision yields "(1)" and the second "(2)". -/
theorem c5_collision_counter (existing : List String) (candidate : String) :
    resolveConflicts existing candidate ∉ existing ∧
    (candidate ∉ existing → resolveConflicts existing candidate = candidate) ∧
    (candidate ∈ existing →
      ∃ j, 1 ≤ j ∧
        resolveConflicts existing candidate = counterName (pathStem candidate) j ∧
        ∀ i, 1 ≤ i → i < j → counterName (pathStem candidate) i ∈ existing) ∧
    resolveConflicts ["2020 - Smith - Paper.pdf"] "2020 - Smith - Paper.pdf"
      = "2020 - Smith - Paper (1).pdf" ∧
    resolveConflicts ["2020 - Smith - Paper.pdf", "2020 - Smith - Paper (1).pdf"]
      "2020 - Smith - Paper.pdf" = "2020 - Smith - Paper (2).pdf" := by
  have hpig := counter_pigeonhole existing (pathStem candidate)
  refine ⟨?_, ?_, ?_, by decide, by decide⟩
  · unfold resolveConflicts
    by_cases hc : existing.contains candidate
    · rw [if_pos hc]
      exact (findCounter_spec existing (pathStem candidate)
        (existing.length + 1) 1 hpig).1
    · rw [if_neg hc]
      exact fun hm => hc (List.elem_iff.mpr hm)
  · intro hnm
    unfold resolveConflicts
    rw [if_neg (fun hc => hnm (List.elem_iff.mp hc))]
  · intro hm
    unfold resolveConflicts
    rw [if_pos (List.elem_iff.mpr hm)]
    exact (findCounter_spec existing (pathStem candidate)
      (existing.length + 1) 1 hpig).2

/-- C5 witness: the claim's concrete collision. -/
theorem c5_witness :
    ("2020 - Smith - Paper.pdf" ∈ ["2020 - Smith - Paper.pdf"]) ∧
    (∃ j, 1 ≤ j ∧
      resolveConflicts ["2020 - Smith - Paper.pdf"] "2020 - Smith - Paper.pdf"
        = counterName (pathStem "2020 - Smith - Paper.pdf") j ∧
      ∀ i, 1 ≤ i → i < j →
        counterName (pathStem "2020 - Smith - Paper.pdf") i
          ∈ ["2020 - Smith - Paper.pdf"]) :=
  ⟨by decide,
   (c5_collision_counter ["2020 - Smith - Paper.pdf"]
     "2020 - Smith - Paper.pdf").2.2.1 (by decide)⟩

/-! ### Claim C7 : helper lemmas -/

theorem mem_natRepr_digit (n : Nat) :
    ∀ c ∈ natRepr n, 48 ≤ c.toNat ∧ c.toNat ≤ 57 := by
  induction n using Nat.strong_induction_on with
  | _ n ih =>
    intro c hc
    rw [natRepr_step] at hc
    by_cases h : n < 10
    · rw [if_pos h] at hc
      have hcd : c = digitToChar n := List.mem_singleton.mp hc
      subst hcd
      rw [digitToChar_toNat h]
      omega
    · rw [if_neg h] at hc
      rcases List.mem_append.mp hc with h1 | h2
      · exact ih _ (Nat.div_lt_self (by omega) (by decide)) c h1
      · have hcd : c = digitToChar (n % 10) := List.mem_singleton.mp h2
        subst hcd
        rw [digitToChar_toNat (Nat.mod_lt n (by decide))]
        omega

theorem mem_pathStem {c : Char} {name : String} (h : c ∈ (pathStem name).data) :
    c ∈ name.data := by
  unfold pathStem at h
  split at h
  · split at h
    · exact (List.take_sublist _ _).mem h
    · exact h
  · exact h

theorem counterName_no_slash {stem : String}
    (hs : ∀ c ∈ stem.data, c ≠ '/') (k : Nat) :
    ∀ c ∈ (counterName stem k).data, c ≠ '/' := by
  intro c hc
  rw [counterName_data] at hc
  rcases List.mem_append.mp hc with h1 | h2
  · exact hs c h1
  · rcases List.mem_append.mp h2 with h3 | h4
    · simp only [List.mem_cons, List.not_mem_nil, or_false] at h3
      rcases h3 with rfl | rfl <;> decide
    · rcases List.mem_append.mp h4 with h5 | h6
      · have hb := mem_natRepr_digit k c h5
        intro heq
        subst heq
        have h47 : ('/' : Char).toNat = 47 := rfl
        omega
      · simp only [List.mem_cons, List.not_mem_nil, or_false] at h6
        rcases h6 with rfl | rfl | rfl | rfl | rfl <;> decide

theorem findCounter_shape (existing : List String) (stem : String) :
    ∀ fuel k, ∃ j, findCounter existing stem k fuel = counterName stem j := by
  intro fuel
  induction fuel with
  | zero => intro k; exact ⟨k, rfl⟩
  | succ fuel ih =>
    intro k
    rw [findCounter]
    by_cases hk : existing.contains (counterName stem k)
    · rw [if_pos hk]
      exact ih (k + 1)
    · rw [if_neg hk]
      exact ⟨k, rfl⟩

theorem counterName_big (stem : String) (k : Nat) :
    2 < (counterName stem k).data.length := by
  rw [counterName_data]
  rw [List.length_append, List.length_append, List.length_append]
  have h2 : (" (".data).length = 2 := rfl
  have h5 : (").pdf".data).length = 5 := rfl
  omega

theorem resolveConflicts_no_slash (existing : List String) (name : String)
    (hs : ∀ c ∈ name.data, c ≠ '/') :
    ∀ c ∈ (resolveConflicts existing name).data, c ≠ '/' := by
  unfold resolveConflicts
  split
  · obtain ⟨j, hj⟩ := findCounter_shape existing (pathStem name) (existing.length + 1) 1
    rw [hj]
    exact counterName_no_slash (fun c hc => hs c (mem_pathStem hc)) j
  · exact hs

theorem resolveConflicts_big (existing : List String) (name : String)
    (hlen : 2 < name.data.length) :
    2 < (resolveConflicts existing name).data.length := by
  unfold resolveConflicts
  split
  · obtain ⟨j, hj⟩ := findCounter_shape existing (pathStem name) (existing.length + 1) 1
    rw [hj]
    exact counterName_big _ _
  · exact hlen

theorem splitCharAux_no_sep (sep : Char) :
    ∀ (l cur : List Char), (∀ c ∈ l, c ≠ sep) →
      splitCharAux sep l cur = [cur.reverse ++ l] := by
  intro l
  induction l with
  | nil =>
    intro cur _
    simp [splitCharAux]
  | cons c rest ih =>
    intro cur h
    rw [splitCharAux,
      if_neg (fun hb => h c (List.mem_cons_self c rest) (eq_of_beq hb))]
    rw [ih (c :: cur) (fun x hx => h x (List.mem_cons_of_mem _ hx))]
    simp

theorem resolveComponents_append_single (dir : List String) (name : String)
    (h1 : name ≠ "") (h2 : name ≠ ".") (h3 : name ≠ "..") :
    resolveComponents (dir ++ [name]) = resolveComponents dir ++ [name] := by
  unfold resolveComponents
  rw [List.foldl_append]
  simp only [List.foldl_cons, List.foldl_nil]
  rw [if_neg (not_or.mpr ⟨h1, h2⟩), if_neg h3]

theorem pathAppend_no_slash (dir : List String) (name : String)
    (hs : ∀ c ∈ name.data, c ≠ '/') (hne : name ≠ "") :
    pathAppend dir name = dir ++ [name] := by
  unfold pathAppend
  rw [splitCharAux_no_sep '/' name.data [] (fun c hc => hs c hc)]
  rw [if_neg (fun hp => hs '/'
    (List.Sublist.mem (List.mem_singleton_self '/')
      (List.IsPrefix.sublist (List.isPrefixOf_iff_prefix.mp hp))) rfl)]
  congr 1
  simp only [List.reverse_nil, List.nil_append, List.map_cons, List.map_nil]
  have hmk : String.mk name.data = name := rfl
  rw [hmk]
  simp [hne]

theorem placeResolved_ok (existing : List String) (sourceName name : String)
    (dir : List String) (hs : ∀ c ∈ name.data, c ≠ '/')
    (hlen : 2 < name.data.length) :
    placeResolved existing sourceName name dir
      = { copied := true, source_filename := sourceName,
          output_filename := some (resolveConflicts existing name),
          error := none } := by
  have hs' := resolveConflicts_no_slash existing name hs
  have hlen' := resolveConflicts_big existing name hlen
  have hne : resolveConflicts existing name ≠ "" := by
    intro he
    rw [he] at hlen'
    exact absurd hlen' (by decide)
  have hdot : resolveConflicts existing name ≠ "." := by
    intro he
    rw [he] at hlen'
    exact absurd hlen' (by decide)
  have hdd : resolveConflicts existing name ≠ ".." := by
    intro he
    rw [he] at hlen'
    exact absurd hlen' (by decide)
  unfold placeResolved
  rw [pathAppend_no_slash dir _ hs' hne]
  rw [resolveComponents_append_single dir _ hne hdot hdd]
  rw [if_pos (List.isPrefixOf_iff_prefix.mpr (List.prefix_append _ _))]

theorem placeResolved_reject (existing : List String)
    (sourceName newFilename : String) (dir : List String)
    (hpfx : (resolveComponents dir).isPrefixOf
        (resolveComponents (pathAppend dir (resolveConflicts existing newFilename)))
      = false) :
    placeResolved existing sourceName newFilename dir
      = { copied := false, source_filename := sourceName, output_filename := none,
          error := some "Output path is outside target directory" } := by
  unfold placeResolved
  rw [if_neg (by rw [hpfx]; exact Bool.false_ne_true)]

theorem create_new_filename_shape (metadata : List (String × Json)) :
    create_new_filename metadata = none ∨
    ∃ year author title, create_new_filename metadata
      = some (year ++ " - " ++ author ++ " - " ++ title ++ ".pdf") := by
  unfold create_new_filename
  cases sanitizeValue (dictGetD metadata "year" (.str "Unknown")) with
  | none => exact Or.inl rfl
  | some year =>
    cases process_author_name (dictGetD metadata "author" (.str "Unknown")) with
    | none => exact Or.inl rfl
    | some author =>
      cases sanitizeValue (dictGetD metadata "title" (.str "Unknown")) with
      | none => exact Or.inl rfl
      | some title => exact Or.inr ⟨year, author, title, rfl⟩

theorem create_new_filename_big (metadata : List (String × Json)) (name : String)
    (h : create_new_filename metadata = some name) : 2 < name.data.length := by
  rcases create_new_filename_shape metadata with hn | ⟨y, a, t, hn⟩
  · rw [hn] at h
    exact absurd h (by simp)
  · rw [hn] at h
    have he := Option.some.inj h
    subst he
    rw [String.data_append, String.data_append, String.data_append,
      String.data_append]
    rw [List.length_append, List.length_append, List.length_append,
      List.length_append]
    have h3 : (" - ".data).length = 3 := rfl
    have h4 : (".pdf".data).length = 4 := rfl
    omega

/-- C7: the resolved destination is checked for lexical containment in the
resolved output directory before the copy: a destination that fails the
check yields a non-copied error record (for any candidate filename), and
under the precondition that the generated filename has been sanitized (no
path separator) the rejection branch is unreachable and the copy proceeds. -/
theorem c7_path_containment (existing : List String) (sourceName : String)
    (metadata : List (String × Json)) (dir : List String) :
    (∀ newFilename,
      (resolveComponents dir).isPrefixOf
          (resolveComponents (pathAppend dir (resolveConflicts existing newFilename)))
        = false →
      placeResolved existing sourceName newFilename dir
        = { copied := false, source_filename := sourceName, output_filename := none,
            error := some "Output path is outside target directory" }) ∧
    (∀ name, create_new_filename metadata = some name →
      (resolveComponents dir).isPrefixOf
          (resolveComponents (pathAppend dir (resolveConflicts existing name)))
        = false →
      copy_pdf_file existing sourceName metadata dir
        = { copied := false, source_filename := sourceName, output_filename := none,
            error := some "Output path is outside target directory" }) ∧
    (∀ name, create_new_filename metadata = some name →
      (∀ c ∈ name.data, c ≠ '/') →
      (copy_pdf_file existing sourceName metadata dir).copied = true) := by
  refine ⟨?_, ?_, ?_⟩
  · intro newFilename hpfx
    exact placeResolved_reject existing sourceName newFilename dir hpfx
  · intro name hn hpfx
    unfold copy_pdf_file
    rw [hn]
    exact placeResolved_reject existing sourceName name dir hpfx
  · intro name hn hs
    unfold copy_pdf_file
    rw [hn]
    show (placeResolved existing sourceName name dir).copied = true
    rw [placeResolved_ok existing sourceName name dir hs
      (create_new_filename_big metadata name hn)]

/-- C7 witness: a sanitized record is copied; a traversal name "../escape"
fails the containment check and is rejected. -/
theorem c7_witness :
    (create_new_filename [("title", Json.str "T"), ("author", Json.str "A"),
        ("year", Json.str "2020")] = some "2020 - A - T.pdf") ∧
    (∀ c ∈ ("2020 - A - T.pdf" : String).data, c ≠ '/') ∧
    (copy_pdf_file [] "s.pdf" [("title", Json.str "T"), ("author", Json.str "A"),
        ("year", Json.str "2020")] ["out"]).copied = true ∧
    ((resolveComponents ["out"]).isPrefixOf
        (resolveComponents (pathAppend ["out"] (resolveConflicts [] "../escape")))
      = false) ∧
    placeResolved [] "s.pdf" "../escape" ["out"]
      = { copied := false, source_filename := "s.pdf", output_filename := none,
          error := some "Output path is outside target directory" } :=
  ⟨rfl, by decide,
   (c7_path_containment [] "s.pdf" [("title", Json.str "T"), ("author", Json.str "A"),
      ("year", Json.str "2020")] ["out"]).2.2 "2020 - A - T.pdf" rfl (by decide),
   by decide,
   (c7_path_containment [] "s.pdf" [("title", Json.str "T"), ("author", Json.str "A"),
      ("year", Json.str "2020")] ["out"]).1 "../escape" (by decide)⟩

/-! ### Claim C9 -/

/-- The filename `create_new_filename` derives from the fallback record's
placeholder field values. -/
def fallbackDerivedName : String :=
  "Could not parse JSON response - Could not parse JSON response - Could not parse JSON response.pdf"

/-- C9: a fallback record (unparseable model response) has a parse_error
key but no error key, so the orchestrator's copy gate (which tests only the
error key) still copies the file, under a filename derived from the
fallback placeholder values. -/
theorem c9_fallback_copied (filename raw : String) (err : Option String)
    (existing : List String) (dir : List String) :
    dictContains (create_fallback_response filename raw err) "error" = false ∧
    dictContains (create_fallback_response filename raw err) "parse_error" = true ∧
    processPdfCopyGate (create_fallback_response filename raw err) true (some dir)
        existing filename
      = some (copy_pdf_file existing filename
          (create_fallback_response filename raw err) dir) ∧
    create_new_filename (create_fallback_response filename raw err)
      = some fallbackDerivedName ∧
    (copy_pdf_file existing filename (create_fallback_response filename raw err)
        dir).copied = true := by
  have hc : create_new_filename (create_fallback_response filename raw err)
      = some fallbackDerivedName := rfl
  refine ⟨rfl, rfl, rfl, hc, ?_⟩
  unfold copy_pdf_file
  rw [hc]
  show (placeResolved existing filename fallbackDerivedName dir).copied = true
  rw [placeResolved_ok existing filename fallbackDerivedName dir (by decide)
    (by decide)]
